import Mathlib

/-
Verification development for the shared-memory SPMC ring buffer
(`ismaelliang/ring_buffer`, header `src/message_queue.h`).

The C++ code is shallowly embedded:

* `MmapRingBuffer.push` / `MmapRingBuffer.pop` and the `MessageQueue`
  layer (`publish`, `subscribe`, constructor checks,
  `isHeaderCompatible`) are translated to pure Lean functions over an
  explicit state record.  Machine integers are `Nat` with explicit
  `% 2^32` / `% 2^64` where the C++ performs a narrowing conversion or
  a wrapping increment.
* The byte layout of the mapped region (header at offset 0, padded
  per-consumer tail entries at offset 64, slot area) is embedded a
  second time at the byte level (`pushBytesOp`, `popBytesOp`) so that
  offset arithmetic of the source can be checked exactly.
-/

namespace RingBufferProof

/-- 2^32, the modulus of the C++ `uint32_t` type. -/
def U32 : Nat := 4294967296

/-- 2^64, the modulus of the C++ `uint64_t` type. -/
def U64 : Nat := 18446744073709551616

/-- sizeof(MessageHeader): type u32 + payload_size u32 + timestamp u64 +
sequence_num u64, 8-byte aligned, no padding. -/
def messageHeaderSize : Nat := 24

/-- sizeof(RingBufferHeader): 16 bytes of fields (head, size,
element_size, num_consumers), then `consumer_tails[1]` whose element
type is alignas(64), so the member sits at offset 64 and the struct is
128 bytes. -/
def ringBufferHeaderSize : Nat := 128

/-- sizeof(RingBufferHeader::ConsumerTail): one atomic u32 padded by
alignas(64) to a full cache line. -/
def consumerTailSize : Nat := 64

/-- sizeof(std::atomic<uint32_t>). -/
def atomicU32Size : Nat := 4

/-- Field offsets inside the mapped region, from the struct layout of
`RingBufferHeader`. -/
def headOffset : Nat := 0

def sizeFieldOffset : Nat := 4

def elementSizeFieldOffset : Nat := 8

def numConsumersFieldOffset : Nat := 12

def consumerTailsOffset : Nat := 64

/-- Byte offset of `consumer_tails[i]` inside the region. -/
def tailEntryOffset (i : Nat) : Nat := consumerTailsOffset + consumerTailSize * i

/-- The C++ expression `num_consumers - 1` evaluated in `uint32_t`
arithmetic (wraps at zero). -/
def u32sub1 (n : Nat) : Nat := (n + (U32 - 1)) % U32

/-- The header size the constructor and both compatibility checks
compute: `sizeof(RingBufferHeader) + (num_consumers - 1) *
sizeof(RingBufferHeader::ConsumerTail)` (message_queue.h lines
274-275, 346-348, 581-582). -/
def headerActualSize (num_consumers : Nat) : Nat :=
  ringBufferHeaderSize + u32sub1 num_consumers * consumerTailSize

/-- Total region size as the source computes it: `header_actual_size +
element_count * element_size` (message_queue.h lines 276 and 349),
where the product of the two `uint32_t` operands is carried out in
`uint32_t` arithmetic — it wraps modulo 2^32 before being widened to
`size_t` and added to the header size. -/
def totalSize (element_count element_size num_consumers : Nat) : Nat :=
  headerActualSize num_consumers + (element_count * element_size) % U32

/-- The slot-base offset `push`/`pop` actually use:
`sizeof(RingBufferHeader) + (num_consumers_ - 1) *
sizeof(std::atomic<uint32_t>)` (message_queue.h lines 450-452,
483-486).  Note `sizeof(std::atomic<uint32_t>) = 4`, not the padded
tail-entry size. -/
def slotBase (num_consumers : Nat) : Nat :=
  ringBufferHeaderSize + u32sub1 num_consumers * atomicU32Size

/-- The slot-base offset the spec prescribes: immediately after the
cache-line-padded tail array, `64 + 64 * num_consumers`. -/
def slotBaseSpec (num_consumers : Nat) : Nat := 64 + 64 * num_consumers

/-- The running minimum loop of `push`/`full`: starting from
`consumer_tails[0]`, replace by any strictly smaller later tail
(message_queue.h lines 433-441). -/
def minTailAux : Nat → List Nat → Nat
  | m, [] => m
  | m, t :: ts => minTailAux (if t < m then t else m) ts

/-- Minimum consumer tail as computed by the source loop, over a
nonempty tail list. -/
def minTail : List Nat → Nat
  | [] => 0
  | t :: ts => minTailAux t ts

/-- One framed message as staged by `MessageQueue::publish`: the
`MessageHeader` fields followed by the payload bytes. -/
structure Frame where
  type : Nat
  payload_size : Nat
  timestamp : Nat
  sequence_num : Nat
  payload : List Nat
deriving DecidableEq

/-- The all-zero frame: what a freshly zero-filled slot reads as. -/
def emptyFrame : Frame :=
  { type := 0, payload_size := 0, timestamp := 0, sequence_num := 0, payload := [] }

/-- Abstract state of one `MmapRingBuffer` region: the header counters
plus the slot array (one `Frame` per slot).  `tails` has one entry per
consumer, so `tails.length` plays the role of `header_->num_consumers`. -/
structure RingState where
  capacity : Nat
  head : Nat
  tails : List Nat
  slots : List Frame
deriving DecidableEq

namespace MmapRingBuffer

/-- MmapRingBuffer::push (message_queue.h lines 430-462): compute the
minimum consumer tail, refuse when `(head + 1) % capacity` equals it,
otherwise write the element at index `head` and advance `head`. -/
def push (st : RingState) (data : Frame) : Bool × RingState :=
  let current_head := st.head
  let min_consumer_tail := minTail st.tails
  let next_head := (current_head + 1) % st.capacity
  if next_head = min_consumer_tail then
    (false, st)
  else
    (true, { st with slots := st.slots.set current_head data, head := next_head })

/-- Result of `MmapRingBuffer::pop`: the out-of-range throw, the
boolean `false` for empty, or the copied-out frame together with
`true`. -/
inductive PopResult where
  | outOfRange
  | empty
  | popped (data : Frame)
deriving DecidableEq

/-- MmapRingBuffer::pop (message_queue.h lines 469-498): bound-check
the consumer id, refuse when this consumer's tail equals `head`,
otherwise copy the slot at the tail and advance this tail. -/
def pop (st : RingState) (consumer_id : Nat) : PopResult × RingState :=
  if consumer_id ≥ st.tails.length then
    (.outOfRange, st)
  else
    let current_tail := st.tails.getD consumer_id 0
    let current_head := st.head
    if current_tail = current_head then
      (.empty, st)
    else
      let data := st.slots.getD current_tail emptyFrame
      let next_tail := (current_tail + 1) % st.capacity
      (.popped data, { st with tails := st.tails.set consumer_id next_tail })

/-- MmapRingBuffer::empty (message_queue.h lines 504-511), for an
in-range consumer id. -/
def emptyCheck (st : RingState) (consumer_id : Nat) : Bool :=
  st.head == st.tails.getD consumer_id 0

/-- MmapRingBuffer::full (message_queue.h lines 517-530). -/
def full (st : RingState) : Bool :=
  (st.head + 1) % st.capacity == minTail st.tails

/-- State of a region freshly initialized by the constructor:
`head = 0`, all tails `0`, zero-filled slots. -/
def initRing (cap num_consumers : Nat) : RingState :=
  { capacity := cap, head := 0, tails := List.replicate num_consumers 0,
    slots := List.replicate cap emptyFrame }

end MmapRingBuffer

/-- State of one `MessageQueue` instance: the per-instance members
`max_payload_size_` and `next_sequence_num_` plus the underlying ring
(`buffer_`). -/
structure QueueState where
  max_payload_size : Nat
  ring : RingState
  next_sequence_num : Nat
deriving DecidableEq

namespace MessageQueue

/-- Result of `MessageQueue::publish`: the `std::invalid_argument`
throw, or the boolean returned by the underlying push. -/
inductive PublishResult where
  | invalidArgument
  | pushed
  | full
deriving DecidableEq

/-- MessageQueue::publish (message_queue.h lines 661-684): reject a
payload larger than `max_payload_size_` (before any state change),
otherwise stage a frame whose `sequence_num` is `next_sequence_num_++`
(the increment happens whether or not the subsequent push succeeds)
and hand it to `MmapRingBuffer::push`.  The timestamp is an input here
because the clock is outside the embedding. -/
def publish (q : QueueState) (type : Nat) (payload : List Nat) (timestamp : Nat) :
    PublishResult × QueueState :=
  if payload.length > q.max_payload_size then
    (.invalidArgument, q)
  else
    let msg : Frame :=
      { type := type, payload_size := payload.length, timestamp := timestamp,
        sequence_num := q.next_sequence_num, payload := payload }
    let q2 : QueueState := { q with next_sequence_num := (q.next_sequence_num + 1) % U64 }
    let r := MmapRingBuffer.push q.ring msg
    (if r.1 then .pushed else .full, { q2 with ring := r.2 })

/-- MessageQueue::subscribe (message_queue.h lines 694-704), after the
null-buffer check (a null out-buffer has no counterpart in the
embedding): delegates to `MmapRingBuffer::pop`. -/
def subscribe (q : QueueState) (consumer_id : Nat) :
    MmapRingBuffer.PopResult × QueueState :=
  let r := MmapRingBuffer.pop q.ring consumer_id
  (r.1, { q with ring := r.2 })

/-- A freshly created queue on a fresh region. -/
def initQueue (cap max_payload num_consumers : Nat) : QueueState :=
  { max_payload_size := max_payload,
    ring := MmapRingBuffer.initRing cap num_consumers,
    next_sequence_num := 0 }

/-- The member `total_message_size_` (message_queue.h line 633): a
`uint32_t`, so `sizeof(MessageHeader) + max_payload_size` is narrowed
modulo 2^32 at initialization. -/
def total_message_size (max_payload_size : Nat) : Nat :=
  (messageHeaderSize + max_payload_size) % U32

/-- The validation errors the MessageQueue constructor can throw. -/
inductive CtorError where
  | invalidArgument
  | overflowError
deriving DecidableEq

/-- The validation performed by the MessageQueue constructor body
(message_queue.h lines 638-647): throw `std::invalid_argument` when
`max_payload_size_ == 0`, then throw `std::overflow_error` when
`total_message_size_ > 0xFFFFFFFF`.  The constructor contains no check
on `queue_capacity` or `num_consumers`; both parameters are listed
here to record that they are ignored by the validation. -/
def ctorCheck (queue_capacity max_payload_size num_consumers : Nat) : Option CtorError :=
  if max_payload_size = 0 then
    some .invalidArgument
  else if total_message_size max_payload_size > U32 - 1 then
    some .overflowError
  else
    none

/-- What `fstat` and the mapped header expose of an existing shared
region: its byte size and the four header fields. -/
structure ShmHeaderInfo where
  st_size : Nat
  size : Nat
  element_size : Nat
  num_consumers : Nat
deriving DecidableEq

/-- MessageQueue::isHeaderCompatible (message_queue.h lines 570-617):
false when the region does not exist; otherwise compare the total
byte size against `header_actual + queue_capacity *
expected_element_size` and each header field against the request.
The expected element size is a `uint32_t`, hence the narrowing
modulo; the product `queue_capacity * expected_element_size` (line
583) is likewise a `uint32_t * uint32_t` product that wraps modulo
2^32 before being widened to `size_t`.  The function opens the region
read-only and maps with PROT_READ, so it takes the region as a value
and returns only a Bool. -/
def isHeaderCompatible (region : Option ShmHeaderInfo)
    (queue_capacity max_payload_size num_consumers : Nat) : Bool :=
  match region with
  | none => false
  | some r =>
    let expected_element_size := (messageHeaderSize + max_payload_size) % U32
    let expected_header_size := headerActualSize num_consumers
    let expected_total_size :=
      expected_header_size + (queue_capacity * expected_element_size) % U32
    (r.st_size == expected_total_size) && (r.size == queue_capacity) &&
      (r.element_size == expected_element_size) && (r.num_consumers == num_consumers)

end MessageQueue

/-- Full observable content of a mapped `MmapRingBuffer` region, for
the attach/create protocol: the byte size, the four header fields, and
the tail values. -/
structure RBRegion where
  st_size : Nat
  size : Nat
  element_size : Nat
  num_consumers : Nat
  head : Nat
  tails : List Nat
deriving DecidableEq

namespace MmapRingBuffer

/-- MmapRingBuffer::isHeaderCompatible (message_queue.h lines
264-310), over the region model: false for a missing region, else
equality of total size and of the three geometry fields. -/
def isHeaderCompatibleRB (region : Option RBRegion)
    (element_count element_size num_consumers : Nat) : Bool :=
  match region with
  | none => false
  | some r =>
    let expected_total_size := totalSize element_count element_size num_consumers
    (r.st_size == expected_total_size) && (r.size == element_count) &&
      (r.element_size == element_size) && (r.num_consumers == num_consumers)

/-- Observable outcome of one run of the MmapRingBuffer constructor:
whether `shm_unlink` was called, whether the header-initialization
branch ran, and the final region content. -/
structure CtorOutcome where
  unlinked : Bool
  initialized : Bool
  final : RBRegion
deriving DecidableEq

/-- The MmapRingBuffer constructor (message_queue.h lines 320-393) as
a transition on the named region, assuming the shm/mmap syscalls
succeed: check compatibility unless `force_recreate`; unlink when
forced or incompatible; `shm_open(O_CREAT)` yields the surviving
region or a fresh zero-filled one; `ftruncate` sets the byte size to
`total_size_`; finally the header and all `num_consumers_` tails are
zeroed exactly when the mapped `size` field reads 0. -/
def construct (region : Option RBRegion)
    (element_count element_size num_consumers : Nat) (force_recreate : Bool) :
    CtorOutcome :=
  let header_compatible :=
    if force_recreate then false
    else isHeaderCompatibleRB region element_count element_size num_consumers
  let unlink := force_recreate || !header_compatible
  let surviving : Option RBRegion := if unlink then none else region
  let total_size := totalSize element_count element_size num_consumers
  let mapped : RBRegion :=
    match surviving with
    | none =>
      { st_size := total_size, size := 0, element_size := 0, num_consumers := 0,
        head := 0, tails := List.replicate num_consumers 0 }
    | some r => { r with st_size := total_size }
  if mapped.size = 0 then
    let inited : RBRegion :=
      { mapped with
        head := 0
        tails := List.replicate num_consumers 0
        size := element_count
        element_size := element_size
        num_consumers := num_consumers }
    { unlinked := unlink, initialized := true, final := inited }
  else
    { unlinked := unlink, initialized := false, final := mapped }

end MmapRingBuffer

/-- The mapped shared region as raw bytes (value of the byte at each
offset). -/
structure ByteRegion where
  bytes : Nat → Nat

/-- memcpy of `len` bytes from `src` to offset `start`. -/
def writeRange (r : ByteRegion) (start len : Nat) (src : Nat → Nat) : ByteRegion :=
  ⟨fun j => if start ≤ j ∧ j < start + len then src (j - start) else r.bytes j⟩

/-- Little-endian read of a `uint32_t` at `off`. -/
def readU32 (r : ByteRegion) (off : Nat) : Nat :=
  r.bytes off + 256 * r.bytes (off + 1) + 65536 * r.bytes (off + 2) +
    16777216 * r.bytes (off + 3)

/-- Little-endian store of a `uint32_t` at `off`. -/
def writeU32 (r : ByteRegion) (off v : Nat) : ByteRegion :=
  writeRange r off 4 (fun k => v / 256 ^ k % 256)

namespace MmapRingBuffer

/-- The tails the push loop visits after `consumer_tails[0]`: indices
1 to `num_consumers - 1` (an empty list when the field reads 0 or 1,
exactly like the `for` loop). -/
def laterTails (r : ByteRegion) (num_consumers : Nat) : List Nat :=
  (List.range (num_consumers - 1)).map
    (fun k => readU32 r (tailEntryOffset (k + 1)))

/-- MmapRingBuffer::push at the byte level (message_queue.h lines
430-462).  The counters and geometry are read from the mapped header
bytes; only the slot base uses the member `num_consumers_`
(`slotBase`).  Returns the push result and the region after the
element memcpy and the head store. -/
def pushBytesOp (num_consumers_mem : Nat) (r : ByteRegion) (data : Nat → Nat) :
    Bool × ByteRegion :=
  let current_head := readU32 r headOffset
  let min_consumer_tail :=
    minTailAux (readU32 r consumerTailsOffset)
      (laterTails r (readU32 r numConsumersFieldOffset))
  let next_head := (current_head + 1) % readU32 r sizeFieldOffset
  if next_head = min_consumer_tail then
    (false, r)
  else
    let element_size := readU32 r elementSizeFieldOffset
    let r1 := writeRange r (slotBase num_consumers_mem + current_head * element_size)
      element_size data
    (true, writeU32 r1 headOffset next_head)

/-- Result of the byte-level pop: out-of-range throw, empty, or the
bytes copied out of the slot. -/
inductive PopBytesResult where
  | outOfRange
  | empty
  | popped (data : List Nat)
deriving DecidableEq

/-- MmapRingBuffer::pop at the byte level (message_queue.h lines
469-498): bound check against the mapped `num_consumers` field, read
this consumer's tail and `head`, copy `element_size` bytes out of the
slot at the tail (using `slotBase` of the member `num_consumers_`),
store the advanced tail. -/
def popBytesOp (num_consumers_mem : Nat) (r : ByteRegion) (consumer_id : Nat) :
    PopBytesResult × ByteRegion :=
  if consumer_id ≥ readU32 r numConsumersFieldOffset then
    (.outOfRange, r)
  else
    let current_tail := readU32 r (tailEntryOffset consumer_id)
    let current_head := readU32 r headOffset
    if current_tail = current_head then
      (.empty, r)
    else
      let element_size := readU32 r elementSizeFieldOffset
      let out := (List.range element_size).map
        (fun k => r.bytes (slotBase num_consumers_mem + current_tail * element_size + k))
      let next_tail := (current_tail + 1) % readU32 r sizeFieldOffset
      (.popped out, writeU32 r (tailEntryOffset consumer_id) next_tail)

end MmapRingBuffer

/-! Helper lemmas about the embedded operations. -/

theorem minTailAux_le_init (ts : List Nat) (m : Nat) : minTailAux m ts ≤ m := by
  induction ts generalizing m with
  | nil => simp [minTailAux]
  | cons t ts ih =>
    simp only [minTailAux]
    split
    · exact le_trans (ih t) (le_of_lt (by assumption))
    · exact ih m

theorem minTailAux_le_mem (ts : List Nat) (m x : Nat) (hx : x ∈ ts) :
    minTailAux m ts ≤ x := by
  induction ts generalizing m with
  | nil => cases hx
  | cons t ts ih =>
    simp only [minTailAux]
    rcases List.mem_cons.mp hx with rfl | hx2
    · split
      · exact le_trans (minTailAux_le_init ts x) le_rfl
      · exact le_trans (minTailAux_le_init ts m) (Nat.le_of_not_lt (by assumption))
    · split
      · exact ih _ hx2
      · exact ih _ hx2

theorem minTailAux_mem_or_init (ts : List Nat) (m : Nat) :
    minTailAux m ts = m ∨ minTailAux m ts ∈ ts := by
  induction ts generalizing m with
  | nil => left; rfl
  | cons t ts ih =>
    simp only [minTailAux]
    split
    · rcases ih t with h | h
      · right; rw [h]; exact List.mem_cons_self t ts
      · right; exact List.mem_cons_of_mem t h
    · rcases ih m with h | h
      · left; exact h
      · right; exact List.mem_cons_of_mem t h

theorem minTail_mem (ts : List Nat) (hne : ts ≠ []) : minTail ts ∈ ts := by
  cases ts with
  | nil => exact absurd rfl hne
  | cons t ts =>
    simp only [minTail]
    rcases minTailAux_mem_or_init ts t with h | h
    · rw [h]; exact List.mem_cons_self t ts
    · exact List.mem_cons_of_mem t h

theorem minTail_le_mem (ts : List Nat) (x : Nat) (hx : x ∈ ts) : minTail ts ≤ x := by
  cases ts with
  | nil => cases hx
  | cons t ts =>
    simp only [minTail]
    rcases List.mem_cons.mp hx with rfl | hx2
    · exact minTailAux_le_init ts x
    · exact minTailAux_le_mem ts t x hx2

theorem writeRange_bytes_of_lt (r : ByteRegion) (start len j : Nat)
    (src : Nat → Nat) (h : j < start) :
    (writeRange r start len src).bytes j = r.bytes j := by
  simp only [writeRange]
  rw [if_neg]
  intro hc
  exact absurd hc.1 (Nat.not_le_of_lt h)

theorem writeRange_bytes_of_ge (r : ByteRegion) (start len j : Nat)
    (src : Nat → Nat) (h : start + len ≤ j) :
    (writeRange r start len src).bytes j = r.bytes j := by
  simp only [writeRange]
  rw [if_neg]
  intro hc
  exact absurd hc.2 (Nat.not_lt_of_le h)

theorem readU32_congr (r1 r2 : ByteRegion) (off : Nat)
    (h : ∀ k, k < 4 → r1.bytes (off + k) = r2.bytes (off + k)) :
    readU32 r1 off = readU32 r2 off := by
  have h0 := h 0 (by omega)
  have h1 := h 1 (by omega)
  have h2 := h 2 (by omega)
  have h3 := h 3 (by omega)
  simp only [Nat.add_zero] at h0
  simp only [readU32, h0, h1, h2, h3]

theorem getD_set_self {α : Type} (l : List α) (n : Nat) (a d : α)
    (h : n < l.length) : (l.set n a).getD n d = a := by
  induction l generalizing n with
  | nil => simp at h
  | cons x xs ih =>
    cases n with
    | zero => simp [List.set]
    | succ m =>
      simp only [List.set, List.getD_cons_succ]
      exact ih m (by simpa using h)

/-! Claim theorems. -/

/-- C9: a publish whose payload exceeds `max_payload_size_` throws
`std::invalid_argument` before staging anything: the returned state is
exactly the input state, so no slot is consumed, the ring (head,
tails, slots) is unchanged and `next_sequence_num_` is not advanced. -/
theorem c9_oversized_payload_atomic (q : QueueState) (type : Nat)
    (payload : List Nat) (timestamp : Nat)
    (h : payload.length > q.max_payload_size) :
    MessageQueue.publish q type payload timestamp =
      (MessageQueue.PublishResult.invalidArgument, q) := by
  simp only [MessageQueue.publish, if_pos h]

/-- Witness for c9_oversized_payload_atomic at a concrete queue. -/
theorem c9_oversized_payload_atomic_wit :
    ([1, 2].length > (MessageQueue.initQueue 4 1 1).max_payload_size) ∧
    MessageQueue.publish (MessageQueue.initQueue 4 1 1) 0 [1, 2] 0 =
      (MessageQueue.PublishResult.invalidArgument, MessageQueue.initQueue 4 1 1) :=
  ⟨by decide, c9_oversized_payload_atomic (MessageQueue.initQueue 4 1 1) 0 [1, 2] 0 (by decide)⟩

/-- C5 (code bug): the constructor's overflow guard compares the
`uint32_t` member `total_message_size_` against 0xFFFFFFFF after the
value was already narrowed modulo 2^32, so the `Overflow` branch is
unreachable for every max_payload, and at max_payload = 4294967272
(which makes sizeof(MessageHeader) + max_payload = 2^32) the element
size silently wraps to 0. -/
theorem c5_overflow_check_unreachable :
    (∀ queue_capacity max_payload_size num_consumers : Nat,
      MessageQueue.ctorCheck queue_capacity max_payload_size num_consumers =
        if max_payload_size = 0 then some MessageQueue.CtorError.invalidArgument
        else none) ∧
    MessageQueue.total_message_size 4294967272 = 0 ∧
    messageHeaderSize + 4294967272 = U32 := by
  refine ⟨?_, by decide, by decide⟩
  intro queue_capacity max_payload_size num_consumers
  unfold MessageQueue.ctorCheck
  split
  · rfl
  · rw [if_neg]
    have hlt : MessageQueue.total_message_size max_payload_size < U32 := by
      unfold MessageQueue.total_message_size
      exact Nat.mod_lt _ (by unfold U32; omega)
    omega

/-- C6 counterexample: a construction request with capacity 1 (below
the required minimum of 2), and one with capacity 0 and zero
consumers, pass the constructor's validation without any
InvalidArgument — the code validates only `max_payload_size != 0`. -/
theorem c6_geometry_not_validated_cex :
    MessageQueue.ctorCheck 1 16 1 = none ∧
    MessageQueue.ctorCheck 0 16 0 = none := by
  constructor <;> decide

/-- C6 amended: the MessageQueue constructor raises InvalidArgument
exactly when max_payload = 0; capacity < 2 and num_consumers = 0 are
not validated and raise no InvalidArgument. -/
theorem c6_amended_invalid_argument_iff
    (queue_capacity max_payload_size num_consumers : Nat) :
    MessageQueue.ctorCheck queue_capacity max_payload_size num_consumers =
        some MessageQueue.CtorError.invalidArgument ↔
      max_payload_size = 0 := by
  unfold MessageQueue.ctorCheck
  split
  case isTrue h => exact ⟨fun _ => h, fun _ => rfl⟩
  case isFalse h =>
    rw [if_neg]
    · exact ⟨fun hc => absurd hc (by simp), fun hc => absurd hc h⟩
    · have hlt : MessageQueue.total_message_size max_payload_size < U32 := by
        unfold MessageQueue.total_message_size
        exact Nat.mod_lt _ (by unfold U32; omega)
      omega

/-- Witness for c6_amended_invalid_argument_iff: max_payload = 0 does
produce InvalidArgument. -/
theorem c6_amended_invalid_argument_iff_wit :
    MessageQueue.ctorCheck 5 0 2 = some MessageQueue.CtorError.invalidArgument :=
  (c6_amended_invalid_argument_iff 5 0 2).mpr rfl

/-- C1 counterexample: on a capacity-2, one-consumer queue, the first
publish succeeds carrying sequence 0; the second finds the ring full
and push returns false, yet `next_sequence_num_` advances from 1 to 2;
after the consumer pops one message the third publish succeeds and
stages sequence 2, so the successfully produced frames carry 0 and 2 —
a gap, refuting both the no-increment clause and contiguity. -/
theorem c1_seq_incremented_on_failed_push_cex :
    (MessageQueue.publish (MessageQueue.initQueue 2 8 1) 1 [5] 0).1 =
      MessageQueue.PublishResult.pushed ∧
    (MessageQueue.publish (MessageQueue.initQueue 2 8 1) 1 [5] 0).2.next_sequence_num = 1 ∧
    (MessageQueue.publish
      (MessageQueue.publish (MessageQueue.initQueue 2 8 1) 1 [5] 0).2 1 [6] 0).1 =
      MessageQueue.PublishResult.full ∧
    (MessageQueue.publish
      (MessageQueue.publish (MessageQueue.initQueue 2 8 1) 1 [5] 0).2 1 [6] 0).2.next_sequence_num = 2 ∧
    (MessageQueue.publish
      (MessageQueue.subscribe
        (MessageQueue.publish
          (MessageQueue.publish (MessageQueue.initQueue 2 8 1) 1 [5] 0).2 1 [6] 0).2 0).2
      1 [7] 0).1 = MessageQueue.PublishResult.pushed ∧
    (MessageQueue.publish
      (MessageQueue.subscribe
        (MessageQueue.publish
          (MessageQueue.publish (MessageQueue.initQueue 2 8 1) 1 [5] 0).2 1 [6] 0).2 0).2
      1 [7] 0).2.ring.slots.getD 1 emptyFrame =
      { type := 1, payload_size := 1, timestamp := 0, sequence_num := 2, payload := [7] } := by
  decide

/-- C1 amended: when a publish with a valid payload finds the ring
full and push returns false, no frame is committed (the ring state is
unchanged), but `next_sequence_num_` IS incremented; a successful
publish stores a frame carrying the pre-increment counter value.
Hence sequence numbers of successfully produced frames are strictly
increasing from 0 but may skip values (one per failed publish), rather
than forming a contiguous series. -/
theorem c1_amended_publish_full_behavior (q : QueueState) (type : Nat)
    (payload : List Nat) (timestamp : Nat)
    (hsize : payload.length ≤ q.max_payload_size) :
    (MessageQueue.publish q type payload timestamp).2.next_sequence_num =
        (q.next_sequence_num + 1) % U64 ∧
    ((MessageQueue.publish q type payload timestamp).1 = MessageQueue.PublishResult.full →
      (MessageQueue.publish q type payload timestamp).2.ring = q.ring) ∧
    ((MessageQueue.publish q type payload timestamp).1 = MessageQueue.PublishResult.pushed →
      (MessageQueue.publish q type payload timestamp).2.ring.slots =
        q.ring.slots.set q.ring.head
          { type := type, payload_size := payload.length, timestamp := timestamp,
            sequence_num := q.next_sequence_num, payload := payload }) := by
  have hgt : ¬ payload.length > q.max_payload_size := not_lt.mpr hsize
  by_cases hc : (q.ring.head + 1) % q.ring.capacity = minTail q.ring.tails
  · refine ⟨?_, ?_, ?_⟩
    · simp [MessageQueue.publish, hgt, MmapRingBuffer.push, hc]
    · intro _
      simp [MessageQueue.publish, hgt, MmapRingBuffer.push, hc]
    · intro hp
      exfalso
      simp [MessageQueue.publish, hgt, MmapRingBuffer.push, hc] at hp
  · refine ⟨?_, ?_, ?_⟩
    · simp [MessageQueue.publish, hgt, MmapRingBuffer.push, hc]
    · intro hp
      exfalso
      simp [MessageQueue.publish, hgt, MmapRingBuffer.push, hc] at hp
    · intro _
      simp [MessageQueue.publish, hgt, MmapRingBuffer.push, hc]

/-- Witness for c1_amended_publish_full_behavior at a concrete queue. -/
theorem c1_amended_publish_full_behavior_wit :
    ([3].length ≤ (MessageQueue.initQueue 4 8 1).max_payload_size) ∧
    ((MessageQueue.publish (MessageQueue.initQueue 4 8 1) 1 [3] 0).2.next_sequence_num =
        ((MessageQueue.initQueue 4 8 1).next_sequence_num + 1) % U64 ∧
    ((MessageQueue.publish (MessageQueue.initQueue 4 8 1) 1 [3] 0).1 =
        MessageQueue.PublishResult.full →
      (MessageQueue.publish (MessageQueue.initQueue 4 8 1) 1 [3] 0).2.ring =
        (MessageQueue.initQueue 4 8 1).ring) ∧
    ((MessageQueue.publish (MessageQueue.initQueue 4 8 1) 1 [3] 0).1 =
        MessageQueue.PublishResult.pushed →
      (MessageQueue.publish (MessageQueue.initQueue 4 8 1) 1 [3] 0).2.ring.slots =
        (MessageQueue.initQueue 4 8 1).ring.slots.set (MessageQueue.initQueue 4 8 1).ring.head
          { type := 1, payload_size := [3].length, timestamp := 0,
            sequence_num := (MessageQueue.initQueue 4 8 1).next_sequence_num,
            payload := [3] })) :=
  ⟨by decide,
   c1_amended_publish_full_behavior (MessageQueue.initQueue 4 8 1) 1 [3] 0 (by decide)⟩

/-- C3: for any ring state with at least one consumer and an in-range
consumer id, push returns false exactly when `(head + 1) mod capacity`
equals the running minimum of the tails (which is the least tail
value), pop returns the empty result exactly when `head` equals this
consumer's tail, and in the remaining cases push commits the element
at `head` and returns true while pop copies the slot at the tail. -/
theorem c3_push_pop_boundary_iff (st : RingState) (data : Frame) (consumer_id : Nat)
    (hne : st.tails ≠ []) (hcid : consumer_id < st.tails.length) :
    ((MmapRingBuffer.push st data).1 = false ↔
        (st.head + 1) % st.capacity = minTail st.tails) ∧
    (minTail st.tails ∈ st.tails ∧ ∀ x ∈ st.tails, minTail st.tails ≤ x) ∧
    ((MmapRingBuffer.pop st consumer_id).1 = MmapRingBuffer.PopResult.empty ↔
        st.head = st.tails.getD consumer_id 0) ∧
    ((MmapRingBuffer.push st data).1 = true →
        (MmapRingBuffer.push st data).2 =
          { st with slots := st.slots.set st.head data,
                    head := (st.head + 1) % st.capacity }) ∧
    (st.head ≠ st.tails.getD consumer_id 0 →
        (MmapRingBuffer.pop st consumer_id).1 =
          MmapRingBuffer.PopResult.popped
            (st.slots.getD (st.tails.getD consumer_id 0) emptyFrame)) := by
  have hrange : ¬ consumer_id ≥ st.tails.length := Nat.not_le_of_lt hcid
  refine ⟨?_, ⟨minTail_mem st.tails hne, fun x hx => minTail_le_mem st.tails x hx⟩, ?_, ?_, ?_⟩
  · by_cases hc : (st.head + 1) % st.capacity = minTail st.tails
    · simp [MmapRingBuffer.push, hc]
    · simp [MmapRingBuffer.push, hc]
  · simp only [MmapRingBuffer.pop, if_neg hrange]
    by_cases he : st.tails.getD consumer_id 0 = st.head
    · rw [if_pos he]
      exact ⟨fun _ => he.symm, fun _ => rfl⟩
    · rw [if_neg he]
      exact ⟨fun hc => absurd hc (by simp), fun hc => absurd hc.symm he⟩
  · intro hp
    by_cases hc : (st.head + 1) % st.capacity = minTail st.tails
    · exfalso
      simp [MmapRingBuffer.push, hc] at hp
    · simp [MmapRingBuffer.push, hc]
  · intro hne2
    have he : ¬ st.tails.getD consumer_id 0 = st.head := fun hc => absurd hc.symm hne2
    simp only [MmapRingBuffer.pop, if_neg hrange, if_neg he]

/-- Witness for c3_push_pop_boundary_iff at a concrete ring state. -/
theorem c3_push_pop_boundary_iff_wit :
    ((MmapRingBuffer.initRing 4 2).tails ≠ [] ∧ 1 < (MmapRingBuffer.initRing 4 2).tails.length) ∧
    (((MmapRingBuffer.push (MmapRingBuffer.initRing 4 2) emptyFrame).1 = false ↔
        ((MmapRingBuffer.initRing 4 2).head + 1) % (MmapRingBuffer.initRing 4 2).capacity =
          minTail (MmapRingBuffer.initRing 4 2).tails) ∧
    (minTail (MmapRingBuffer.initRing 4 2).tails ∈ (MmapRingBuffer.initRing 4 2).tails ∧
      ∀ x ∈ (MmapRingBuffer.initRing 4 2).tails,
        minTail (MmapRingBuffer.initRing 4 2).tails ≤ x) ∧
    ((MmapRingBuffer.pop (MmapRingBuffer.initRing 4 2) 1).1 = MmapRingBuffer.PopResult.empty ↔
        (MmapRingBuffer.initRing 4 2).head = (MmapRingBuffer.initRing 4 2).tails.getD 1 0) ∧
    ((MmapRingBuffer.push (MmapRingBuffer.initRing 4 2) emptyFrame).1 = true →
        (MmapRingBuffer.push (MmapRingBuffer.initRing 4 2) emptyFrame).2 =
          { MmapRingBuffer.initRing 4 2 with
              slots := (MmapRingBuffer.initRing 4 2).slots.set
                (MmapRingBuffer.initRing 4 2).head emptyFrame,
              head := ((MmapRingBuffer.initRing 4 2).head + 1) %
                (MmapRingBuffer.initRing 4 2).capacity }) ∧
    ((MmapRingBuffer.initRing 4 2).head ≠ (MmapRingBuffer.initRing 4 2).tails.getD 1 0 →
        (MmapRingBuffer.pop (MmapRingBuffer.initRing 4 2) 1).1 =
          MmapRingBuffer.PopResult.popped
            ((MmapRingBuffer.initRing 4 2).slots.getD
              ((MmapRingBuffer.initRing 4 2).tails.getD 1 0) emptyFrame))) :=
  ⟨⟨by decide, by decide⟩,
   c3_push_pop_boundary_iff (MmapRingBuffer.initRing 4 2) emptyFrame 1 (by decide) (by decide)⟩

/-- C4 counterexample: on a capacity-2, one-consumer queue the first
publish succeeds, a second publish finds the ring full (and still
consumes sequence 1), the consumer pops one message, and a third
publish succeeds; the frame the consumer then reads back from that
second successful produce carries sequence_num 2, not its successful
ordinal 1. -/
theorem c4_seq_not_ordinal_cex :
    (MessageQueue.publish (MessageQueue.initQueue 2 8 1) 1 [5] 0).1 =
      MessageQueue.PublishResult.pushed ∧
    (MessageQueue.publish
      (MessageQueue.publish (MessageQueue.initQueue 2 8 1) 1 [5] 0).2 1 [6] 0).1 =
      MessageQueue.PublishResult.full ∧
    (MessageQueue.subscribe
      (MessageQueue.publish
        (MessageQueue.publish (MessageQueue.initQueue 2 8 1) 1 [5] 0).2 1 [6] 0).2 0).1 =
      MmapRingBuffer.PopResult.popped
        { type := 1, payload_size := 1, timestamp := 0, sequence_num := 0, payload := [5] } ∧
    (MessageQueue.publish
      (MessageQueue.subscribe
        (MessageQueue.publish
          (MessageQueue.publish (MessageQueue.initQueue 2 8 1) 1 [5] 0).2 1 [6] 0).2 0).2
      1 [7] 0).1 = MessageQueue.PublishResult.pushed ∧
    (MessageQueue.subscribe
      (MessageQueue.publish
        (MessageQueue.subscribe
          (MessageQueue.publish
            (MessageQueue.publish (MessageQueue.initQueue 2 8 1) 1 [5] 0).2 1 [6] 0).2 0).2
        1 [7] 0).2 0).1 =
      MmapRingBuffer.PopResult.popped
        { type := 1, payload_size := 1, timestamp := 0, sequence_num := 2, payload := [7] } := by
  decide

/-- C4 amended: for every frame produced with a given (type, payload)
of size at most max_payload, a consumer whose tail sits at the slot
just written pops back the same type, the same payload_size, the same
payload bytes, and a sequence_num equal to the value of
`next_sequence_num_` at that publish — i.e. the count of all prior
publish calls with a valid payload size (including those whose push
failed because the ring was full), not the ordinal of successful
produces. -/
theorem c4_amended_roundtrip (q : QueueState) (type : Nat) (payload : List Nat)
    (timestamp : Nat) (consumer_id : Nat)
    (hsize : payload.length ≤ q.max_payload_size)
    (hcap : 2 ≤ q.ring.capacity)
    (hhead : q.ring.head < q.ring.capacity)
    (hslots : q.ring.head < q.ring.slots.length)
    (hcid : consumer_id < q.ring.tails.length)
    (htail : q.ring.tails.getD consumer_id 0 = q.ring.head)
    (hpush : (MessageQueue.publish q type payload timestamp).1 =
      MessageQueue.PublishResult.pushed) :
    (MessageQueue.subscribe (MessageQueue.publish q type payload timestamp).2 consumer_id).1
      = MmapRingBuffer.PopResult.popped
          { type := type, payload_size := payload.length, timestamp := timestamp,
            sequence_num := q.next_sequence_num, payload := payload } := by
  have hgt : ¬ payload.length > q.max_payload_size := not_lt.mpr hsize
  have hc : ¬ (q.ring.head + 1) % q.ring.capacity = minTail q.ring.tails := by
    intro hfull
    simp [MessageQueue.publish, hgt, MmapRingBuffer.push, hfull] at hpush
  have hne : (q.ring.head + 1) % q.ring.capacity ≠ q.ring.head := by
    rcases Nat.lt_or_ge (q.ring.head + 1) q.ring.capacity with hlt | hge
    · rw [Nat.mod_eq_of_lt hlt]
      omega
    · have heq : q.ring.head + 1 = q.ring.capacity := by omega
      rw [heq, Nat.mod_self]
      omega
  simp only [MessageQueue.publish, if_neg hgt, MmapRingBuffer.push, if_neg hc,
    MessageQueue.subscribe, MmapRingBuffer.pop]
  rw [if_neg (Nat.not_le_of_lt hcid), if_neg (by rw [htail]; exact fun h => hne h.symm),
    htail, getD_set_self q.ring.slots q.ring.head _ emptyFrame hslots]

/-- Witness for c4_amended_roundtrip at a concrete queue. -/
theorem c4_amended_roundtrip_wit :
    ([9].length ≤ (MessageQueue.initQueue 4 8 1).max_payload_size ∧
     2 ≤ (MessageQueue.initQueue 4 8 1).ring.capacity ∧
     (MessageQueue.initQueue 4 8 1).ring.head < (MessageQueue.initQueue 4 8 1).ring.capacity ∧
     (MessageQueue.initQueue 4 8 1).ring.head < (MessageQueue.initQueue 4 8 1).ring.slots.length ∧
     0 < (MessageQueue.initQueue 4 8 1).ring.tails.length ∧
     (MessageQueue.initQueue 4 8 1).ring.tails.getD 0 0 = (MessageQueue.initQueue 4 8 1).ring.head ∧
     (MessageQueue.publish (MessageQueue.initQueue 4 8 1) 2 [9] 5).1 =
       MessageQueue.PublishResult.pushed) ∧
    (MessageQueue.subscribe (MessageQueue.publish (MessageQueue.initQueue 4 8 1) 2 [9] 5).2 0).1
      = MmapRingBuffer.PopResult.popped
          { type := 2, payload_size := [9].length, timestamp := 5,
            sequence_num := (MessageQueue.initQueue 4 8 1).next_sequence_num, payload := [9] } :=
  ⟨⟨by decide, by decide, by decide, by decide, by decide, by decide, by decide⟩,
   c4_amended_roundtrip (MessageQueue.initQueue 4 8 1) 2 [9] 5 0 (by decide) (by decide)
     (by decide) (by decide) (by decide) (by decide) (by decide)⟩

theorem u32sub1_eq (n : Nat) (h1 : 1 ≤ n) (h2 : n < U32) : u32sub1 n = n - 1 := by
  unfold u32sub1 U32 at *
  omega

theorem headerActualSize_eq (n : Nat) (h1 : 1 ≤ n) (h2 : n < U32) :
    headerActualSize n = 64 + 64 * n := by
  unfold headerActualSize ringBufferHeaderSize consumerTailSize
  rw [u32sub1_eq n h1 h2]
  omega

/-- C7 counterexample: the code multiplies `queue_capacity *
expected_element_size` in uint32 arithmetic (message_queue.h line
583), so at C = 2^31, P = 8, N = 1 the expected slot-array size wraps
to 0 and a 128-byte region whose header records (2^31, 32, 1) makes
isHeaderCompatible return true, although its total size is not
`64 + 64*N + C*(sizeof(MessageHeader) + P)` = 68719476864 as the
claim's iff requires. -/
theorem c7_wrapped_product_cex :
    MessageQueue.isHeaderCompatible
      (some { st_size := 128, size := 2147483648, element_size := 32, num_consumers := 1 })
      2147483648 8 1 = true ∧
    (128 : Nat) ≠ 64 + 64 * 1 + 2147483648 * (messageHeaderSize + 8) := by
  constructor
  · decide
  · decide

/-- C7 amended: for every region state and request with at least one
consumer (and an element size within 32-bit range),
`isHeaderCompatible(name, C, P, N)` returns true exactly when the
named region exists, its total byte size equals
`64 + 64*N + ((C*(sizeof(MessageHeader) + P)) mod 2^32)` — the
slot-array term wraps because the code computes it as a uint32
product — and its header records capacity C, element_size
`sizeof(MessageHeader) + P` and num_consumers N; for requests with
`C*(sizeof(MessageHeader)+P) < 2^32` this is exactly the claimed
formula.  The embedding is a pure function of the region (the code
opens read-only and unmaps), so the check modifies no state. -/
theorem c7_amended_is_header_compatible_iff (region : Option MessageQueue.ShmHeaderInfo)
    (C P N : Nat) (hN : 1 ≤ N) (hN32 : N < U32) (hP : messageHeaderSize + P < U32) :
    MessageQueue.isHeaderCompatible region C P N = true ↔
      ∃ r, region = some r ∧
        r.st_size = 64 + 64 * N + (C * (messageHeaderSize + P)) % U32 ∧
        r.size = C ∧ r.element_size = messageHeaderSize + P ∧ r.num_consumers = N := by
  cases region with
  | none =>
    simp [MessageQueue.isHeaderCompatible]
  | some r =>
    simp only [MessageQueue.isHeaderCompatible, Bool.and_eq_true, beq_iff_eq,
      Nat.mod_eq_of_lt hP, headerActualSize_eq N hN hN32]
    constructor
    · rintro ⟨⟨⟨hs, hc⟩, he⟩, hn⟩
      exact ⟨r, rfl, by omega, hc, he, hn⟩
    · rintro ⟨r2, hr2, hs, hc, he, hn⟩
      cases hr2
      exact ⟨⟨⟨by omega, hc⟩, he⟩, hn⟩

/-- Witness for c7_amended_is_header_compatible_iff at a concrete
region. -/
theorem c7_amended_is_header_compatible_iff_wit :
    (1 ≤ 1 ∧ 1 < U32 ∧ messageHeaderSize + 8 < U32) ∧
    MessageQueue.isHeaderCompatible
      (some { st_size := 192, size := 2, element_size := 32, num_consumers := 1 }) 2 8 1 = true :=
  ⟨⟨by decide, by decide, by decide⟩,
   (c7_amended_is_header_compatible_iff
      (some { st_size := 192, size := 2, element_size := 32, num_consumers := 1 }) 2 8 1
      (by decide) (by decide) (by decide)).mpr
     ⟨{ st_size := 192, size := 2, element_size := 32, num_consumers := 1 },
      rfl, by decide, by decide, by decide, by decide⟩⟩

/-- C8 counterexample: the constructor's compatibility check compares
the region's size against a total whose slot-array term is the uint32
product `element_count * element_size mod 2^32` (message_queue.h lines
276 and 349).  A region of 68719476864 bytes whose header records
(2^31, 32, 1) — exactly the requested geometry, with true total size
`64 + 64*1 + 2^31*32` — is therefore judged incompatible by a request
for (2^31, 32, 1) without force_recreate: the constructor unlinks and
recreates it, violating the claim's clause that an existing region is
unlinked and recreated only when its geometry mismatches the request
or force_recreate is set. -/
theorem c8_wrapped_size_unlink_cex :
    (MmapRingBuffer.construct
        (some { st_size := 68719476864, size := 2147483648, element_size := 32,
                num_consumers := 1, head := 1, tails := [1] })
        2147483648 32 1 false).unlinked = true ∧
    (MmapRingBuffer.construct
        (some { st_size := 68719476864, size := 2147483648, element_size := 32,
                num_consumers := 1, head := 1, tails := [1] })
        2147483648 32 1 false).initialized = true ∧
    (68719476864 : Nat) = 64 + 64 * 1 + 2147483648 * 32 := by
  refine ⟨?_, ?_, by decide⟩
  · decide
  · decide

/-- C8 amended: for an existing region whose mapped capacity field
reads nonzero, the constructor unlinks exactly when force_recreate is
set or the code's compatibility check fails — the check compares the
header fields and the total size computed with the uint32-wrapped
slot-array term `(element_count * element_size) mod 2^32`, which
coincides with true geometry mismatch whenever that product is below
2^32; when it attaches (no force, check passes) it rewrites nothing —
header, head and every tail are returned unchanged — and the
zero-initialization branch runs only on runs that unlinked first
(i.e. only when the freshly mapped capacity field reads 0). -/
theorem c8_amended_attach_idempotent (r : RBRegion)
    (element_count element_size num_consumers : Nat) (force_recreate : Bool)
    (hcap : r.size ≠ 0) :
    ((MmapRingBuffer.construct (some r) element_count element_size num_consumers
        force_recreate).unlinked =
      (force_recreate ||
        !(MmapRingBuffer.isHeaderCompatibleRB (some r) element_count element_size
            num_consumers))) ∧
    ((MmapRingBuffer.construct (some r) element_count element_size num_consumers
        force_recreate).initialized = true →
      (MmapRingBuffer.construct (some r) element_count element_size num_consumers
        force_recreate).unlinked = true) ∧
    (force_recreate = false →
      MmapRingBuffer.isHeaderCompatibleRB (some r) element_count element_size
        num_consumers = true →
      MmapRingBuffer.construct (some r) element_count element_size num_consumers
          force_recreate =
        { unlinked := false, initialized := false, final := r }) := by
  obtain ⟨rs, rc, re, rn, rh, rt⟩ := r
  cases force_recreate with
  | true =>
    refine ⟨?_, ?_, ?_⟩
    · simp [MmapRingBuffer.construct]
    · intro _
      simp [MmapRingBuffer.construct]
    · intro hcontra
      exact Bool.noConfusion hcontra
  | false =>
    by_cases hcompat : MmapRingBuffer.isHeaderCompatibleRB
        (some ⟨rs, rc, re, rn, rh, rt⟩) element_count element_size num_consumers = true
    · have hsz : rs = totalSize element_count element_size num_consumers := by
        have h2 := hcompat
        simp only [MmapRingBuffer.isHeaderCompatibleRB, Bool.and_eq_true, beq_iff_eq] at h2
        exact h2.1.1.1
      have hcap2 : ¬ rc = 0 := by simpa using hcap
      have hfinal : MmapRingBuffer.construct (some ⟨rs, rc, re, rn, rh, rt⟩)
          element_count element_size num_consumers false =
          { unlinked := false, initialized := false, final := ⟨rs, rc, re, rn, rh, rt⟩ } := by
        simp [MmapRingBuffer.construct, hcompat, hcap2, ← hsz]
      rw [hfinal]
      refine ⟨by simp [hcompat], ?_, fun _ _ => rfl⟩
      intro h
      exact Bool.noConfusion h
    · have hcompat2 : MmapRingBuffer.isHeaderCompatibleRB
          (some ⟨rs, rc, re, rn, rh, rt⟩) element_count element_size num_consumers = false :=
        Bool.eq_false_iff.mpr hcompat
      refine ⟨?_, ?_, ?_⟩
      · simp [MmapRingBuffer.construct, hcompat2]
      · intro _
        simp [MmapRingBuffer.construct, hcompat2]
      · intro _ hc
        exact absurd hc hcompat

/-- Witness for c8_amended_attach_idempotent: attaching to a
compatible initialized region leaves it untouched. -/
theorem c8_amended_attach_idempotent_wit :
    ({ st_size := 192, size := 2, element_size := 32, num_consumers := 1, head := 1,
       tails := [1] : RBRegion }.size ≠ 0) ∧
    (((MmapRingBuffer.construct
        (some { st_size := 192, size := 2, element_size := 32, num_consumers := 1, head := 1,
                tails := [1] }) 2 32 1 false).unlinked =
      (false ||
        !(MmapRingBuffer.isHeaderCompatibleRB
            (some { st_size := 192, size := 2, element_size := 32, num_consumers := 1, head := 1,
                    tails := [1] }) 2 32 1))) ∧
    (((MmapRingBuffer.construct
        (some { st_size := 192, size := 2, element_size := 32, num_consumers := 1, head := 1,
                tails := [1] }) 2 32 1 false).initialized = true →
      (MmapRingBuffer.construct
        (some { st_size := 192, size := 2, element_size := 32, num_consumers := 1, head := 1,
                tails := [1] }) 2 32 1 false).unlinked = true) ∧
    ((false : Bool) = false →
      MmapRingBuffer.isHeaderCompatibleRB
        (some { st_size := 192, size := 2, element_size := 32, num_consumers := 1, head := 1,
                tails := [1] }) 2 32 1 = true →
      MmapRingBuffer.construct
        (some { st_size := 192, size := 2, element_size := 32, num_consumers := 1, head := 1,
                tails := [1] }) 2 32 1 false =
        { unlinked := false, initialized := false,
          final := { st_size := 192, size := 2, element_size := 32, num_consumers := 1,
                     head := 1, tails := [1] } }))) :=
  ⟨by decide,
   c8_amended_attach_idempotent
     { st_size := 192, size := 2, element_size := 32, num_consumers := 1, head := 1,
       tails := [1] } 2 32 1 false (by decide)⟩

theorem slotBase_ge (num_consumers : Nat) : 128 ≤ slotBase num_consumers := by
  unfold slotBase ringBufferHeaderSize
  omega

theorem writeU32_bytes_of_lt (r : ByteRegion) (off v j : Nat) (h : j < off) :
    (writeU32 r off v).bytes j = r.bytes j :=
  writeRange_bytes_of_lt r off 4 j _ h

theorem writeU32_bytes_of_ge (r : ByteRegion) (off v j : Nat) (h : off + 4 ≤ j) :
    (writeU32 r off v).bytes j = r.bytes j :=
  writeRange_bytes_of_ge r off 4 j _ h

theorem pushBytesOp_preserves_low (num_consumers_mem : Nat) (r : ByteRegion)
    (data : Nat → Nat) (j : Nat) (h4 : 4 ≤ j) (h16 : j < 16) :
    ((MmapRingBuffer.pushBytesOp num_consumers_mem r data).2).bytes j = r.bytes j := by
  unfold MmapRingBuffer.pushBytesOp
  dsimp only
  split
  · rfl
  · have hbase := slotBase_ge num_consumers_mem
    dsimp only
    rw [writeU32_bytes_of_ge _ _ _ _ (by unfold headOffset; omega),
      writeRange_bytes_of_lt _ _ _ _ _ (by omega)]

theorem popBytesOp_preserves_low (num_consumers_mem : Nat) (r : ByteRegion)
    (consumer_id j : Nat) (h4 : 4 ≤ j) (h16 : j < 16) :
    ((MmapRingBuffer.popBytesOp num_consumers_mem r consumer_id).2).bytes j = r.bytes j := by
  unfold MmapRingBuffer.popBytesOp
  dsimp only
  split
  · rfl
  · split
    · rfl
    · dsimp only
      rw [writeU32_bytes_of_lt]
      unfold tailEntryOffset consumerTailsOffset consumerTailSize
      omega

/-- C10: the byte-level push and pop never write the geometry fields:
the `size` (capacity), `element_size` and `num_consumers` header
words, at byte offsets 4, 8 and 12, read the same after any push (slot
memcpy plus head store) and any pop (tail store) — only `head`, the
tail entries, and slot bytes change.  The observers `empty`, `full`
and `current_size` are embedded as pure functions of the state, so
they change nothing by construction. -/
theorem c10_geometry_fields_constant (num_consumers_mem : Nat) (r : ByteRegion)
    (data : Nat → Nat) (consumer_id : Nat) :
    readU32 ((MmapRingBuffer.pushBytesOp num_consumers_mem r data).2) sizeFieldOffset =
      readU32 r sizeFieldOffset ∧
    readU32 ((MmapRingBuffer.pushBytesOp num_consumers_mem r data).2) elementSizeFieldOffset =
      readU32 r elementSizeFieldOffset ∧
    readU32 ((MmapRingBuffer.pushBytesOp num_consumers_mem r data).2) numConsumersFieldOffset =
      readU32 r numConsumersFieldOffset ∧
    readU32 ((MmapRingBuffer.popBytesOp num_consumers_mem r consumer_id).2) sizeFieldOffset =
      readU32 r sizeFieldOffset ∧
    readU32 ((MmapRingBuffer.popBytesOp num_consumers_mem r consumer_id).2) elementSizeFieldOffset =
      readU32 r elementSizeFieldOffset ∧
    readU32 ((MmapRingBuffer.popBytesOp num_consumers_mem r consumer_id).2) numConsumersFieldOffset =
      readU32 r numConsumersFieldOffset := by
  have hpush : ∀ off : Nat, 4 ≤ off → off + 3 < 16 →
      readU32 ((MmapRingBuffer.pushBytesOp num_consumers_mem r data).2) off =
        readU32 r off := by
    intro off h1 h2
    refine readU32_congr _ _ off (fun k hk => ?_)
    exact pushBytesOp_preserves_low num_consumers_mem r data (off + k) (by omega) (by omega)
  have hpop : ∀ off : Nat, 4 ≤ off → off + 3 < 16 →
      readU32 ((MmapRingBuffer.popBytesOp num_consumers_mem r consumer_id).2) off =
        readU32 r off := by
    intro off h1 h2
    refine readU32_congr _ _ off (fun k hk => ?_)
    exact popBytesOp_preserves_low num_consumers_mem r consumer_id (off + k) (by omega) (by omega)
  refine ⟨hpush 4 (by omega) (by omega), hpush 8 (by omega) (by omega),
    hpush 12 (by omega) (by omega), hpop 4 (by omega) (by omega),
    hpop 8 (by omega) (by omega), hpop 12 (by omega) (by omega)⟩

/-- C2 (code bug): push and pop compute the slot base as
`sizeof(RingBufferHeader) + (N-1) * sizeof(std::atomic<uint32_t>)` =
`128 + 4*(N-1)` while the allocated layout (and the spec) put the slot
array at `64 + 64*N`.  The two agree only for N = 1.  For N = 2 the
code reads and writes slots starting at offset 132 instead of 192,
inside the tail array.  For N = 3 with element_size 64, pushing to
slot 0 writes bytes 136..199, which cover the `tails[2]` atomic at
offset 192: on a concrete region the push overwrites that tail word
(0 becomes 117901063).  The total allocation itself does match the
spec formula `64 + 64*N + capacity*element_size`. -/
theorem c2_slot_offset_overlaps_tail_entries :
    slotBase 1 = slotBaseSpec 1 ∧
    slotBase 2 = 132 ∧ slotBaseSpec 2 = 192 ∧
    totalSize 4 64 2 = 64 + 64 * 2 + 4 * 64 ∧
    slotBase 3 = 136 ∧
    tailEntryOffset 2 = 192 ∧
    (slotBase 3 ≤ tailEntryOffset 2 ∧ tailEntryOffset 2 + 4 ≤ slotBase 3 + 64) ∧
    ((MmapRingBuffer.pushBytesOp 3
        ⟨fun j => if j = 4 then 8 else if j = 8 then 64 else if j = 12 then 3 else 0⟩
        (fun _ => 7)).1 = true ∧
      readU32 ((MmapRingBuffer.pushBytesOp 3
        ⟨fun j => if j = 4 then 8 else if j = 8 then 64 else if j = 12 then 3 else 0⟩
        (fun _ => 7)).2) (tailEntryOffset 2) = 117901063 ∧
      readU32 ⟨fun j => if j = 4 then 8 else if j = 8 then 64 else if j = 12 then 3 else 0⟩
        (tailEntryOffset 2) = 0) := by
  refine ⟨by decide, by decide, by decide, by decide, by decide, by decide,
    ⟨by decide, by decide⟩, ?_, ?_, by decide⟩
  · decide
  · decide

end RingBufferProof
